import Mathlib

/-!
Shallow embedding of the news analysis pipeline of this repository
(src/news_analysis/news_analyzer.py, class NewsAnalyzer).

Modelling conventions:
* Python text is modelled as List Char, a sequence of code points.
* Calls into external libraries (requests, googletrans, VADER, TextBlob,
  strptime of the standard library, MongoDB inserts) are modelled as
  explicit oracle parameters; an oracle answering none models the call
  raising an exception that the surrounding Python code catches.
* Fractional scores are modelled as rationals; timestamps as integers
  counting seconds, so that a window of d days spans d * 86400 seconds.
* Character classes follow their ASCII meaning; the Unicode extensions of
  the Python classes are outside the model.
-/

/-- ASCII whitespace as recognised by Python str.strip with no argument. -/
def pyIsSpace (c : Char) : Bool :=
  c == ' ' || c == '\t' || c == '\n' || c == '\r' || c == '\x0b' || c == '\x0c'

/-- Python str.strip with no argument, on ASCII whitespace. -/
def pyStrip (cs : List Char) : List Char :=
  ((cs.dropWhile pyIsSpace).reverse.dropWhile pyIsSpace).reverse

/-- Python truth test for the blank-text guards of the source:
the test (not text or text.strip() == Empty) holds exactly when every
character is whitespace (in particular when the text is empty). -/
def isBlank (cs : List Char) : Bool :=
  cs.all pyIsSpace

/-- Result of NewsAnalyzer.analyze_sentiment.  The Python function returns a
dict; the polarity and subjectivity keys are present in some return paths
and absent in others, which Option records.  (The error key of the
exception fallback is not modelled: the analyzer oracles below are total.) -/
structure SentimentResult where
  compound : ℚ
  positive : ℚ
  negative : ℚ
  neutral : ℚ
  polarity : Option ℚ
  subjectivity : Option ℚ
deriving DecidableEq

/-- NewsAnalyzer.analyze_sentiment (news_analyzer.py lines 167-216).
vader models SentimentIntensityAnalyzer.polarity_scores as the tuple
(compound, pos, neg, neu); blob models TextBlob sentiment as the pair
(polarity, subjectivity). -/
def analyze_sentiment (vader : List Char → ℚ × ℚ × ℚ × ℚ)
    (blob : List Char → ℚ × ℚ) (text : List Char) : SentimentResult :=
  if isBlank text then
    { compound := 0, positive := 0, negative := 0, neutral := 1
      polarity := none, subjectivity := none }
  else
    let v := vader text
    let b := blob text
    { compound := v.1, positive := v.2.1, negative := v.2.2.1, neutral := v.2.2.2
      polarity := some b.1, subjectivity := some b.2 }

/-- Chunking of long text in NewsAnalyzer.translate_text: the list
comprehension text[i:i+4999] for i in range(0, len(text), 4999). -/
def chunkList (cs : List Char) : List (List Char) :=
  if h : cs = [] then []
  else cs.take 4999 :: chunkList (cs.drop 4999)
termination_by cs.length
decreasing_by
  simp only [List.length_drop]
  have : 0 < cs.length := List.length_pos.mpr h
  omega

/-- One iteration of the try body of NewsAnalyzer.translate_text
(lines 136-155), for a fixed attempt: blank text returns the empty string;
text shorter than 5000 code points is translated by a single oracle call;
longer text is cut into chunks of at most 4999 code points, each chunk is
translated, and the results are joined with single spaces.  The oracle tr
models one googletrans call; none models the call raising, which aborts
the whole attempt. -/
def translateAttempt (tr : List Char → Option (List Char))
    (text : List Char) : Option (List Char) :=
  if isBlank text then some []
  else if text.length < 5000 then tr text
  else ((chunkList text).mapM tr).map (List.intercalate " ".data)

/-- NewsAnalyzer.translate_text (lines 121-165): up to max_retries = 3
attempts; every attempt failing makes the function return the original
text.  The oracle is indexed by the attempt number. -/
def translate_text (tr : Nat → List Char → Option (List Char))
    (text : List Char) : List Char :=
  match translateAttempt (tr 0) text with
  | some r => r
  | none =>
    match translateAttempt (tr 1) text with
    | some r => r
    | none =>
      match translateAttempt (tr 2) text with
      | some r => r
      | none => text

/-- Result of NewsAnalyzer.analyze_sentiment as stored under the sentiment
key of an article, together with the other per-article fields used by the
storage and query paths. -/
structure Article where
  title : List Char
  url : List Char
  publishedDate : Int
  source : List Char
  language : List Char
  content : List Char
  symbols : List (List Char)
  sentiment : SentimentResult
deriving DecidableEq

/-- Retry loop of NewsAnalyzer.fetch_news_from_source (lines 234-409):
for attempt in range(max_retries), with retry_delay starting at 2 seconds
and doubling after each failed attempt.  The oracle http models one
requests.get plus parsing round; none models requests.RequestException.
The result records the fetched articles, the number of attempts made, and
the list of sleep durations performed between attempts. -/
def fetchLoop (http : Nat → Option (List Article)) (maxRetries : Nat)
    (attempt : Nat) (delay : Nat) : List Article × Nat × List Nat :=
  if h : attempt < maxRetries then
    match http attempt with
    | some arts => (arts, attempt + 1, [])
    | none =>
      if attempt < maxRetries - 1 then
        let r := fetchLoop http maxRetries (attempt + 1) (delay * 2)
        (r.1, r.2.1, delay :: r.2.2)
      else ([], attempt + 1, [])
  else ([], attempt, [])
termination_by maxRetries - attempt
decreasing_by omega

/-- NewsAnalyzer.fetch_news_from_source with max_retries = 3 and
retry_delay = 2 as in the source. -/
def fetch_news_from_source (http : Nat → Option (List Article)) :
    List Article × Nat × List Nat :=
  fetchLoop http 3 0 2

/-- Calendar date produced by NewsAnalyzer parse date handling; models a
Python datetime at day granularity (the only granularity the parser
constructs explicitly). -/
structure PyDate where
  year : Nat
  month : Nat
  day : Nat
deriving DecidableEq

/-- Gregorian leap year rule used by Python datetime validity. -/
def isLeapYear (y : Nat) : Bool :=
  y % 4 == 0 && (y % 100 != 0 || y % 400 == 0)

/-- Number of days of a month, per the Gregorian calendar. -/
def daysInMonth (y m : Nat) : Nat :=
  if m == 2 then (if isLeapYear y then 29 else 28)
  else if m == 4 || m == 6 || m == 9 || m == 11 then 30
  else 31

/-- Validity of the arguments of the Python datetime.datetime constructor:
year within 1..9999, month within 1..12, day within the month.  The
constructor raises ValueError outside this range. -/
def isValidDate (y m d : Nat) : Prop :=
  1 ≤ y ∧ y ≤ 9999 ∧ 1 ≤ m ∧ m ≤ 12 ∧ 1 ≤ d ∧ d ≤ daysInMonth y m

instance (y m d : Nat) : Decidable (isValidDate y m d) := by
  unfold isValidDate; infer_instance

/-- The 8 explicit date formats tried by NewsAnalyzer parse date handling
(news_analyzer.py lines 483-492), in source order. -/
def dateFormats : List (List Char) :=
  ["%Y-%m-%d".data, "%d-%m-%Y".data, "%b %d, %Y".data, "%d %b %Y".data,
   "%B %d, %Y".data, "%d %B %Y".data, "%Y/%m/%d".data, "%d/%m/%Y".data]

/-- The loop over dateFormats: the first format the strptime oracle
accepts wins.  The oracle strp models datetime.strptime applied to the
stripped input and a format; none models ValueError. -/
def strptimeChain (strp : List Char → List Char → Option PyDate)
    (s : List Char) : Option PyDate :=
  dateFormats.findSome? (fun fmt => strp s fmt)

/-- Numeric value of a digit group, as Python int on a decimal string. -/
def digitsVal (g : List Char) : Nat :=
  g.foldl (fun acc c => acc * 10 + (c.toNat - '0'.toNat)) 0

/-- Helper for the date regex: consume exactly n leading decimal digits,
returning their numeric value and the remaining text. -/
def takeDigits (n : Nat) (cs : List Char) : Option (Nat × List Char) :=
  let g := cs.take n
  if g.length = n ∧ g.all Char.isDigit then some (digitsVal g, cs.drop n)
  else none

/-- Helper for the date regex: consume one separator, slash or dash. -/
def sepChk : List Char → Option (List Char)
  | [] => none
  | c :: rest => if c = '/' ∨ c = '-' then some rest else none

/-- Third group of the date regex: two to four digits, greedy. -/
def dateRegexG3 (d m : Nat) (cs : List Char) : Option (Nat × Nat × Nat × Nat) :=
  ((takeDigits 4 cs).map (fun p => (d, m, p.1, 4))).orElse fun _ =>
  ((takeDigits 3 cs).map (fun p => (d, m, p.1, 3))).orElse fun _ =>
  (takeDigits 2 cs).map (fun p => (d, m, p.1, 2))

/-- Second group of the date regex followed by the rest of the pattern:
one or two digits, greedy with backtracking, then a separator, then the
third group. -/
def dateRegexG2 (d : Nat) (cs : List Char) : Option (Nat × Nat × Nat × Nat) :=
  ((takeDigits 2 cs).bind fun p => (sepChk p.2).bind fun r =>
    dateRegexG3 d p.1 r).orElse fun _ =>
  (takeDigits 1 cs).bind fun p => (sepChk p.2).bind fun r =>
    dateRegexG3 d p.1 r

/-- Anchored match of the permissive date pattern of the source, the
regex of one or two digits, a slash or dash, one or two digits, a slash
or dash, then two to four digits, at the head of the text; greedy
quantifiers with backtracking, as in the Python re module.  The result
carries the three captured groups (read by the source as day, month,
year) plus the digit count of the year group. -/
def dateRegexAt (cs : List Char) : Option (Nat × Nat × Nat × Nat) :=
  ((takeDigits 2 cs).bind fun p => (sepChk p.2).bind fun r =>
    dateRegexG2 p.1 r).orElse fun _ =>
  (takeDigits 1 cs).bind fun p => (sepChk p.2).bind fun r =>
    dateRegexG2 p.1 r

/-- Python re.search for the permissive date pattern: leftmost match wins. -/
def dateRegexSearch : List Char → Option (Nat × Nat × Nat × Nat)
  | [] => none
  | c :: cs => (dateRegexAt (c :: cs)).orElse fun _ => dateRegexSearch cs

/-- NewsAnalyzer parse date handling (news_analyzer.py lines 468-515,
method parse underscore date).  Blank input returns the current time; the
8 explicit formats are tried in order; then the permissive regex, whose
groups are read as day, month, year, a 2-digit year being prefixed with
20; a regex hit with an invalid calendar combination makes the datetime
constructor raise, which the outer handler turns into the current time;
any remaining input falls back to the current time. -/
def parse_date (strp : List Char → List Char → Option PyDate) (now : PyDate)
    (dateStr : List Char) : PyDate :=
  if isBlank dateStr then now
  else
    match strptimeChain strp (pyStrip dateStr) with
    | some d => d
    | none =>
      match dateRegexSearch dateStr with
      | some (d, m, y, yLen) =>
        let yy := if yLen = 2 then 2000 + y else y
        if isValidDate yy m d then ⟨yy, m, d⟩ else now
      | none => now

/-- Anchored match of the ticker pattern of the source, the regex of four
digits captured, then a literal dot, then SR, at the head of the text;
on success the captured four-digit group is returned.  The pattern has
fixed width, so no backtracking arises. -/
def matchTicker : List Char → Option (List Char)
  | c0 :: c1 :: c2 :: c3 :: c4 :: c5 :: c6 :: _ =>
    if c0.isDigit ∧ c1.isDigit ∧ c2.isDigit ∧ c3.isDigit ∧
       c4 = '.' ∧ c5 = 'S' ∧ c6 = 'R'
    then some [c0, c1, c2, c3] else none
  | _ => none

/-- Python re.findall for the ticker pattern: scan left to right, take
each non-overlapping match, and continue after its end. -/
def findTickers (text : List Char) : List (List Char) :=
  match text with
  | [] => []
  | c :: cs =>
    match matchTicker (c :: cs) with
    | some g => g :: findTickers (cs.drop 6)
    | none => findTickers cs
termination_by text.length
decreasing_by
  · simp only [List.length_cons, List.length_drop]; omega
  · simp only [List.length_cons]; omega

/-- The static alias table stock_name_mapping of the source
(news_analyzer.py lines 578-592), in source order. -/
def stock_name_mapping : List (List Char × List Char) :=
  [("aramco".data, "2222.SR".data),
   ("saudi aramco".data, "2222.SR".data),
   ("sabic".data, "2010.SR".data),
   ("al rajhi".data, "1120.SR".data),
   ("rajhi bank".data, "1120.SR".data),
   ("stc".data, "7010.SR".data),
   ("saudi telecom".data, "7010.SR".data),
   ("samba".data, "1090.SR".data),
   ("ncb".data, "1180.SR".data),
   ("national commercial bank".data, "1180.SR".data),
   ("maaden".data, "1211.SR".data),
   ("saudi arabian mining".data, "1211.SR".data),
   ("almarai".data, "2280.SR".data)]

/-- Test that pat begins the text, helper for the Python in operator. -/
def startsWithSeq : List Char → List Char → Bool
  | [], _ => true
  | _ :: _, [] => false
  | p :: ps, c :: cs => p == c && startsWithSeq ps cs

/-- Python substring membership, the operator (pat in text). -/
def hasSub (pat : List Char) : List Char → Bool
  | [] => pat.isEmpty
  | c :: rest => startsWithSeq pat (c :: rest) || hasSub pat rest

/-- Python str.lower restricted to ASCII letters. -/
def pyToLower (cs : List Char) : List Char :=
  cs.map Char.toLower

/-- Lexicographic comparison of texts by code point, the Python string
less-or-equal used by sorted. -/
def lexLeB : List Char → List Char → Bool
  | [], _ => true
  | _ :: _, [] => false
  | a :: as, b :: bs => if a < b then true else if a = b then lexLeB as bs else false

/-- Propositional form of lexLeB, the sorting relation of the model. -/
def lexLe (x y : List Char) : Prop :=
  lexLeB x y = true

instance : DecidableRel lexLe :=
  fun x y => inferInstanceAs (Decidable (lexLeB x y = true))

instance : IsTotal (List Char) lexLe where
  total := by
    intro a
    induction a with
    | nil => intro b; left; rfl
    | cons x xs ih =>
      intro b
      cases b with
      | nil => right; rfl
      | cons y ys =>
        rcases lt_trichotomy x y with h | h | h
        · left; show lexLeB _ _ = true; simp [lexLeB, h]
        · subst h
          rcases ih ys with h2 | h2
          · left; show lexLeB _ _ = true; simp [lexLeB, lt_irrefl]; exact h2
          · right; show lexLeB _ _ = true; simp [lexLeB, lt_irrefl]; exact h2
        · right; show lexLeB _ _ = true; simp [lexLeB, h]

instance : IsTrans (List Char) lexLe where
  trans := by
    intro a
    induction a with
    | nil => intro b c _ _; exact rfl
    | cons x xs ih =>
      intro b c hab hbc
      cases b with
      | nil => exact absurd hab (by simp [lexLe, lexLeB])
      | cons y ys =>
        cases c with
        | nil => exact absurd hbc (by simp [lexLe, lexLeB])
        | cons z zs =>
          have hab' : lexLeB (x :: xs) (y :: ys) = true := hab
          have hbc' : lexLeB (y :: ys) (z :: zs) = true := hbc
          show lexLeB _ _ = true
          by_cases h1 : x < y
          · by_cases h2 : y < z
            · simp [lexLeB, lt_trans h1 h2]
            · by_cases h3 : y = z
              · subst h3; simp [lexLeB, h1]
              · simp [lexLeB, h2, h3] at hbc'
          · by_cases h1e : x = y
            · subst h1e
              simp only [lexLeB, lt_irrefl, if_false, if_pos rfl, if_neg (lt_irrefl x)] at hab'
              by_cases h2 : x < z
              · simp [lexLeB, h2]
              · by_cases h3 : x = z
                · subst h3
                  simp only [lexLeB, lt_irrefl, if_false, if_pos rfl,
                    if_neg (lt_irrefl x)] at hbc'
                  simp only [lexLeB, lt_irrefl, if_false, if_pos rfl, if_neg (lt_irrefl x)]
                  exact ih ys zs hab' hbc'
                · simp [lexLeB, h2, h3] at hbc'
            · simp [lexLeB, h1, h1e] at hab'

/-- Python sorted(list(set(l))) on strings: drop duplicates, then sort
lexicographically. -/
def pySortedSet (l : List (List Char)) : List (List Char) :=
  List.insertionSort lexLe l.dedup

/-- NewsAnalyzer extract stock symbols (news_analyzer.py lines 556-607,
method extract underscore stock underscore symbols): regex tickers get
the .SR suffix appended, alias names matching the lowercased text
contribute their ticker, and the union is deduplicated and sorted. -/
def extract_stock_symbols (text : List Char) : List (List Char) :=
  let regexSyms := (findTickers text).map (fun g => g ++ ".SR".data)
  let textLower := pyToLower text
  let aliasSyms :=
    (stock_name_mapping.filter (fun nm => hasSub nm.1 textLower)).map
      (fun nm => nm.2)
  pySortedSet (regexSyms ++ aliasSyms)

/-- Outcome of one MongoDB insert underscore one call in
NewsAnalyzer.store_news_in_db: ok is a normal insert whose result carries
an inserted id; noId is a result with a falsy inserted id (logged as a
warning, not counted); exc is a raised exception, which the handler
around the whole loop catches. -/
inductive InsertOutcome where
  | ok
  | noId
  | exc
deriving DecidableEq

/-- Per-article loop of NewsAnalyzer.store_news_in_db (lines 622-641).
The database is modelled as the list of stored articles in insertion
order; find underscore one by url is List.find?.  An exc outcome aborts
the loop through the batch-level exception handler, which returns 0;
articles inserted before the exception stay stored. -/
def storeLoop (behav : Article → InsertOutcome) :
    List Article → List Article → Nat → Nat × List Article
  | [], db, count => (count, db)
  | a :: rest, db, count =>
    match db.find? (fun b => b.url == a.url) with
    | some _ => storeLoop behav rest db count
    | none =>
      match behav a with
      | .ok => storeLoop behav rest (db ++ [a]) (count + 1)
      | .noId => storeLoop behav rest db count
      | .exc => (0, db)

/-- NewsAnalyzer.store_news_in_db (lines 609-649): the guard for an empty
batch returns 0, otherwise the per-article loop runs with stored_count
starting at 0.  Returns the reported count and the resulting database. -/
def store_news_in_db (behav : Article → InsertOutcome)
    (articles : List Article) (db : List Article) : Nat × List Article :=
  if articles.isEmpty then (0, db) else storeLoop behav articles db 0

/-- Uniqueness invariant of the article store: no two stored articles
share the same url. -/
def NoDupUrl (db : List Article) : Prop :=
  (db.map (fun a => a.url)).Nodup

instance (db : List Article) : Decidable (NoDupUrl db) := by
  unfold NoDupUrl; infer_instance

/-- Specification helper for the store theorems: the articles of a batch
that get newly inserted, given the urls already seen. -/
def newArticles : List Article → List (List Char) → List Article
  | [], _ => []
  | a :: rest, seen =>
    if a.url ∈ seen then newArticles rest seen
    else a :: newArticles rest (seen ++ [a.url])

/-- Descending order on publication timestamps, the MongoDB sort of
get_news_for_symbol. -/
def newer (a b : Article) : Prop :=
  b.publishedDate ≤ a.publishedDate

instance : DecidableRel newer :=
  fun a b => inferInstanceAs (Decidable (b.publishedDate ≤ a.publishedDate))

instance : IsTotal Article newer :=
  ⟨fun a b => (Int.le_total b.publishedDate a.publishedDate).elim Or.inl Or.inr⟩

instance : IsTrans Article newer :=
  ⟨fun _ _ _ h1 h2 => le_trans h2 h1⟩

/-- NewsAnalyzer.get_news_for_symbol (lines 707-745): filter the store by
symbol membership and by publication within the trailing window, sort
newest first, cap at the limit. -/
def get_news_for_symbol (db : List Article) (now : Int) (symbol : List Char)
    (days : Nat) (limit : Nat) : List Article :=
  let startDate := now - (days : Int) * 86400
  let hits := db.filter
    (fun a => a.symbols.contains symbol &&
      decide (startDate ≤ a.publishedDate) && decide (a.publishedDate ≤ now))
  (List.insertionSort newer hits).take limit

/-- Mean sentiment block of a summary. -/
structure AverageSentiment where
  compound : ℚ
  positive : ℚ
  negative : ℚ
  neutral : ℚ
deriving DecidableEq

/-- Entry of the latest underscore articles block of a summary. -/
structure LatestArticle where
  title : List Char
  url : List Char
  publishedDate : Int
  source : List Char
  sentiment : ℚ
deriving DecidableEq

/-- Return value of NewsAnalyzer.get_sentiment_summary.  The zero-article
return dict of the source carries no latest underscore articles key,
which Option records.  (The exception fallback dict is not modelled: the
read path of the model is total.) -/
structure SentimentSummary where
  symbol : List Char
  periodDays : Nat
  articleCount : Nat
  averageSentiment : AverageSentiment
  sentimentTrend : List Char
  latestArticles : Option (List LatestArticle)
deriving DecidableEq

/-- NewsAnalyzer.get_sentiment_summary (lines 747-837): query the window
with limit 100; an empty result returns the fixed zero summary; otherwise
each sentiment field is averaged with sum over length, the trend is
classified against the thresholds plus and minus one twentieth, and the
first five retrieved articles form the latest underscore articles block. -/
def get_sentiment_summary (db : List Article) (now : Int)
    (symbol : List Char) (days : Nat) : SentimentSummary :=
  let arts := get_news_for_symbol db now symbol days 100
  if arts.isEmpty then
    { symbol := symbol, periodDays := days, articleCount := 0
      averageSentiment := { compound := 0, positive := 0, negative := 0, neutral := 0 }
      sentimentTrend := "neutral".data, latestArticles := none }
  else
    let n : ℚ := arts.length
    let avgC := (arts.map (fun a => a.sentiment.compound)).sum / n
    let avgP := (arts.map (fun a => a.sentiment.positive)).sum / n
    let avgN := (arts.map (fun a => a.sentiment.negative)).sum / n
    let avgU := (arts.map (fun a => a.sentiment.neutral)).sum / n
    let trend :=
      if avgC ≥ 1/20 then "positive".data
      else if avgC ≤ -(1/20) then "negative".data
      else "neutral".data
    { symbol := symbol, periodDays := days, articleCount := arts.length
      averageSentiment := { compound := avgC, positive := avgP, negative := avgN, neutral := avgU }
      sentimentTrend := trend
      latestArticles := some ((arts.take 5).map
        (fun a => { title := a.title, url := a.url, publishedDate := a.publishedDate
                    source := a.source, sentiment := a.sentiment.compound })) }

/-- Concrete article fixture used by the witnesses: an article with the
given url, publication timestamp and compound score, linked to the Aramco
ticker. -/
def artW (u : List Char) (d : Int) (c : ℚ) : Article :=
  { title := u, url := u, publishedDate := d, source := "Argaam".data
    language := "en".data, content := u, symbols := ["2222.SR".data]
    sentiment := { compound := c, positive := 0, negative := 0, neutral := 0
                   polarity := none, subjectivity := none } }

/-! Helper lemmas. -/

theorem mem_pySortedSet {s : List Char} {l : List (List Char)} :
    s ∈ pySortedSet l ↔ s ∈ l := by
  unfold pySortedSet
  rw [List.mem_insertionSort, List.mem_dedup]

theorem pySortedSet_nodup (l : List (List Char)) : (pySortedSet l).Nodup :=
  ((List.perm_insertionSort lexLe l.dedup).nodup_iff).mpr (List.nodup_dedup l)

theorem pySortedSet_sorted (l : List (List Char)) :
    (pySortedSet l).Sorted lexLe :=
  List.sorted_insertionSort lexLe l.dedup

/-! Claim C3 (sentiment on blank input). -/

/-- Claim C3, counterexample: the claim also asserts zero polarity and zero
subjectivity on empty input, but the empty-input return dict of
analyze_sentiment carries no polarity or subjectivity keys at all (unlike
the exception fallback dict): the result has polarity none, not some 0,
even though the four-field neutral vector part of the claim holds. -/
theorem analyze_sentiment_empty_polarity_cex :
    (analyze_sentiment (fun _ => (0, 0, 0, 0)) (fun _ => (0, 0)) []).polarity ≠ some 0 ∧
    analyze_sentiment (fun _ => (0, 0, 0, 0)) (fun _ => (0, 0)) [] =
      { compound := 0, positive := 0, negative := 0, neutral := 1
        polarity := none, subjectivity := none } := by
  constructor
  · simp [analyze_sentiment, isBlank]
  · simp [analyze_sentiment, isBlank]

/-- Claim C3, amended: analyze_sentiment applied to the empty string or to
whitespace-only text returns exactly the fixed neutral vector of compound
0, positive 0, negative 0, neutral 1, and the result carries no polarity
and no subjectivity entries (rather than zero ones). -/
theorem analyze_sentiment_neutral_on_blank
    (vader : List Char → ℚ × ℚ × ℚ × ℚ) (blob : List Char → ℚ × ℚ)
    (text : List Char) (h : isBlank text = true) :
    analyze_sentiment vader blob text =
      { compound := 0, positive := 0, negative := 0, neutral := 1
        polarity := none, subjectivity := none } := by
  simp [analyze_sentiment, h]

/-- Witness for C3 at the whitespace-only text of two spaces. -/
theorem analyze_sentiment_neutral_on_blank_witness :
    isBlank "  ".data = true ∧
    analyze_sentiment (fun _ => (0, 0, 0, 0)) (fun _ => (0, 0)) "  ".data =
      { compound := 0, positive := 0, negative := 0, neutral := 1
        polarity := none, subjectivity := none } :=
  ⟨by decide, analyze_sentiment_neutral_on_blank _ _ _ (by decide)⟩

/-! Claim C6 (translation fallback). -/

/-- Claim C6: translate_text never raises (it is total by construction over
the translation oracle); blank input returns the empty string, and when
the translation attempt fails on all 3 tries the original input text is
returned unchanged. -/
theorem translate_text_fallback (tr : Nat → List Char → Option (List Char))
    (text : List Char) :
    (isBlank text = true → translate_text tr text = []) ∧
    ((∀ a, a < 3 → translateAttempt (tr a) text = none) →
      translate_text tr text = text) := by
  constructor
  · intro h
    simp [translate_text, translateAttempt, h]
  · intro h
    have h0 := h 0 (by omega)
    have h1 := h 1 (by omega)
    have h2 := h 2 (by omega)
    simp [translate_text, h0, h1, h2]

/-- Witness for C6: a permanently failing oracle on a non-blank text
returns the original text, and a blank text returns the empty string. -/
theorem translate_text_fallback_witness :
    (∀ a, a < 3 → translateAttempt ((fun _ _ => none) a) "abc".data = none) ∧
    translate_text (fun _ _ => none) "abc".data = "abc".data :=
  ⟨by decide, (translate_text_fallback (fun _ _ => none) "abc".data).2 (by decide)⟩

/-! Claim C7 (fetch retry bound). -/

/-- Claim C7: fetch_news_from_source makes at most 3 HTTP attempts; when
the source fails permanently, the result is the empty list (no exception
reaches the caller: the model is total), exactly 3 attempts are made, and
the backoff sleeps are 2 seconds then 4 seconds, doubling from 2. -/
theorem fetch_news_retry_bound (http : Nat → Option (List Article)) :
    (fetch_news_from_source http).2.1 ≤ 3 ∧
    ((∀ a, http a = none) → fetch_news_from_source http = ([], 3, [2, 4])) := by
  constructor
  · cases h0 : http 0 with
    | some a0 => simp [fetch_news_from_source, fetchLoop, h0]
    | none =>
      cases h1 : http 1 with
      | some a1 => simp [fetch_news_from_source, fetchLoop, h0, h1]
      | none =>
        cases h2 : http 2 with
        | some a2 => simp [fetch_news_from_source, fetchLoop, h0, h1, h2]
        | none => simp [fetch_news_from_source, fetchLoop, h0, h1, h2]
  · intro h
    simp [fetch_news_from_source, fetchLoop, h 0, h 1, h 2]

/-- Witness for C7 at the permanently failing oracle. -/
theorem fetch_news_retry_bound_witness :
    (∀ a : Nat, (fun _ : Nat => (none : Option (List Article))) a = none) ∧
    fetch_news_from_source (fun _ => none) = ([], 3, [2, 4]) :=
  ⟨fun _ => rfl, (fetch_news_retry_bound (fun _ => none)).2 (fun _ => rfl)⟩

/-! Claim C4 (date parsing chain). -/

theorem findSome?_eq_of_first {α β : Type} (f : α → Option β) :
    ∀ (l : List α) (i : Nat) (hi : i < l.length),
      (∀ j, (hj : j < i) → f (l.get ⟨j, lt_trans hj hi⟩) = none) →
      ∀ d, f (l.get ⟨i, hi⟩) = some d → l.findSome? f = some d := by
  intro l
  induction l with
  | nil => intro i hi; exact absurd hi (by simp)
  | cons a l ih =>
    intro i hi hprev d hd
    cases i with
    | zero =>
      simp only [List.get] at hd
      rw [List.findSome?_cons, hd]
    | succ i =>
      have h0 : f a = none := hprev 0 (Nat.succ_pos i)
      rw [List.findSome?_cons, h0]
      exact ih i (by simpa using hi)
        (fun j hj => hprev (j + 1) (Nat.succ_lt_succ hj)) d hd

/-- Claim C4: parse_date is total (it always returns some timestamp and
never raises, exceptions of the oracle and of the datetime constructor
being caught); blank input yields the current time; the 8 explicit
formats are tried in order with the first format that matches winning;
when no format matches, the permissive regex is applied, its groups read
as day, month and year, a 2-digit year being expanded by prefixing 20 (a
calendar-invalid combination degrades to the current time through the
exception handler); when the regex finds nothing either, the current time
is returned.  The final conjunct is the coverage statement: the result is
always the current time, a format-parse result, or the regex-built date. -/
theorem parse_date_contract (strp : List Char → List Char → Option PyDate)
    (now : PyDate) (s : List Char) :
    (isBlank s = true → parse_date strp now s = now) ∧
    (∀ i, (hi : i < dateFormats.length) → ∀ d,
      (∀ j, (hj : j < i) → strp (pyStrip s) (dateFormats.get ⟨j, lt_trans hj hi⟩) = none) →
      strp (pyStrip s) (dateFormats.get ⟨i, hi⟩) = some d →
      isBlank s = false → parse_date strp now s = d) ∧
    (∀ d m y yLen, isBlank s = false →
      strptimeChain strp (pyStrip s) = none →
      dateRegexSearch s = some (d, m, y, yLen) →
      parse_date strp now s =
        (if isValidDate (if yLen = 2 then 2000 + y else y) m d
         then ⟨if yLen = 2 then 2000 + y else y, m, d⟩ else now)) ∧
    (isBlank s = false → strptimeChain strp (pyStrip s) = none →
      dateRegexSearch s = none → parse_date strp now s = now) ∧
    (parse_date strp now s = now ∨
      (∃ fmt ∈ dateFormats, strp (pyStrip s) fmt = some (parse_date strp now s)) ∨
      (∃ d m y yLen, dateRegexSearch s = some (d, m, y, yLen) ∧
        parse_date strp now s = ⟨if yLen = 2 then 2000 + y else y, m, d⟩)) := by
  refine ⟨?_, ?_, ?_, ?_, ?_⟩
  · intro h; simp [parse_date, h]
  · intro i hi d hprev hd hblank
    have hchain : strptimeChain strp (pyStrip s) = some d :=
      findSome?_eq_of_first _ dateFormats i hi hprev d hd
    simp [parse_date, hblank, hchain]
  · intro d m y yLen hblank hchain hregex
    simp [parse_date, hblank, hchain, hregex]
  · intro hblank hchain hregex
    simp [parse_date, hblank, hchain, hregex]
  · by_cases hblank : isBlank s = true
    · left; simp [parse_date, hblank]
    · rw [Bool.not_eq_true] at hblank
      cases hchain : strptimeChain strp (pyStrip s) with
      | some d =>
        right; left
        have := List.exists_of_findSome?_eq_some hchain
        obtain ⟨fmt, hmem, hfmt⟩ := this
        refine ⟨fmt, hmem, ?_⟩
        rw [hfmt]
        have : parse_date strp now s = d := by simp [parse_date, hblank, hchain]
        rw [this]
      | none =>
        cases hregex : dateRegexSearch s with
        | none => left; simp [parse_date, hblank, hchain, hregex]
        | some t =>
          obtain ⟨d, m, y, yLen⟩ := t
          by_cases hvalid : isValidDate (if yLen = 2 then 2000 + y else y) m d
          · right; right
            exact ⟨d, m, y, yLen, rfl, by simp [parse_date, hblank, hchain, hregex, hvalid]⟩
          · left; simp [parse_date, hblank, hchain, hregex, hvalid]

/-- Witness for C4: garbage input under an oracle refusing every format
falls back to the current time. -/
theorem parse_date_contract_witness :
    isBlank "garbage!!".data = false ∧
    strptimeChain (fun _ _ => none) (pyStrip "garbage!!".data) = none ∧
    dateRegexSearch "garbage!!".data = none ∧
    parse_date (fun _ _ => none) ⟨1999, 1, 1⟩ "garbage!!".data = ⟨1999, 1, 1⟩ :=
  ⟨by decide, by decide, by decide,
    (parse_date_contract (fun _ _ => none) ⟨1999, 1, 1⟩ "garbage!!".data).2.2.2.1
      (by decide) (by decide) (by decide)⟩

/-! Claims C1 and C2 (article store). -/

theorem storeLoop_ok_eq (behav : Article → InsertOutcome)
    (hb : ∀ a, behav a = InsertOutcome.ok) :
    ∀ (batch db : List Article) (c : Nat),
      storeLoop behav batch db c =
        (c + (newArticles batch (db.map (fun a => a.url))).length,
         db ++ newArticles batch (db.map (fun a => a.url))) := by
  intro batch
  induction batch with
  | nil => intro db c; simp [storeLoop, newArticles]
  | cons a rest ih =>
    intro db c
    by_cases hmem : a.url ∈ db.map (fun x => x.url)
    · have hfind : (db.find? (fun b => b.url == a.url)).isSome := by
        rw [List.find?_isSome]
        obtain ⟨b, hbmem, hburl⟩ := List.mem_map.mp hmem
        exact ⟨b, hbmem, by simp [hburl]⟩
      obtain ⟨v, hv⟩ := Option.isSome_iff_exists.mp hfind
      rw [show storeLoop behav (a :: rest) db c = storeLoop behav rest db c by
        simp only [storeLoop, hv]]
      rw [ih db c]
      simp only [newArticles, if_pos hmem]
    · have hfind : db.find? (fun b => b.url == a.url) = none := by
        rw [List.find?_eq_none]
        intro x hx
        simp only [beq_iff_eq, Bool.not_eq_true, decide_eq_false_iff_not]
        intro hxa
        exact hmem (List.mem_map.mpr ⟨x, hx, hxa⟩)
      simp only [storeLoop, hfind, hb a]
      rw [ih (db ++ [a]) (c + 1)]
      simp only [newArticles, if_neg hmem, List.map_append, List.map_cons, List.map_nil,
        List.length_cons, Prod.mk.injEq]
      constructor
      · omega
      · simp [List.append_assoc]

theorem newArticles_urls_nodup :
    ∀ (batch : List Article) (seen : List (List Char)), seen.Nodup →
      (seen ++ (newArticles batch seen).map (fun a => a.url)).Nodup := by
  intro batch
  induction batch with
  | nil => intro seen h; simpa [newArticles]
  | cons a rest ih =>
    intro seen h
    by_cases hmem : a.url ∈ seen
    · simpa [newArticles, if_pos hmem] using ih seen h
    · have h2 : (seen ++ [a.url]).Nodup := by
        simp [List.nodup_append, h, hmem]
      have h3 := ih (seen ++ [a.url]) h2
      rw [newArticles, if_neg hmem]
      simpa [List.append_assoc] using h3

theorem newArticles_url_mem :
    ∀ (batch : List Article) (seen : List (List Char)) (a : Article), a ∈ batch →
      a.url ∈ seen ++ (newArticles batch seen).map (fun x => x.url) := by
  intro batch
  induction batch with
  | nil => intro seen a h; cases h
  | cons b rest ih =>
    intro seen a h
    by_cases hmem : b.url ∈ seen
    · rw [newArticles, if_pos hmem]
      rcases List.mem_cons.mp h with rfl | h2
      · exact List.mem_append.mpr (Or.inl hmem)
      · exact ih seen a h2
    · rw [newArticles, if_neg hmem]
      rcases List.mem_cons.mp h with rfl | h2
      · apply List.mem_append.mpr; right; simp
      · have h3 := ih (seen ++ [b.url]) a h2
        simpa [List.append_assoc] using h3

theorem countP_url_eq_one {l : List Article}
    (hnd : (l.map (fun x => x.url)).Nodup) {u : List Char}
    (hm : u ∈ l.map (fun x => x.url)) :
    l.countP (fun b => b.url == u) = 1 := by
  induction l with
  | nil => cases hm
  | cons a l ih =>
    rw [List.map_cons] at hnd hm
    have hhead := (List.nodup_cons.mp hnd).1
    have htail := (List.nodup_cons.mp hnd).2
    rw [List.countP_cons]
    rcases List.mem_cons.mp hm with hequ | h2
    · subst hequ
      have hz : l.countP (fun b => b.url == a.url) = 0 := by
        rw [List.countP_eq_zero]
        intro b hb
        simp only [beq_iff_eq]
        intro heq
        exact hhead (List.mem_map.mpr ⟨b, hb, heq⟩)
      simp [hz]
    · have hne : (a.url == u) = false := by
        simp only [beq_eq_false_iff_ne, ne_eq]
        intro heq
        exact hhead (heq ▸ h2)
      rw [ih htail h2]
      simp [hne]

/-- Claim C1: the insert path of the store preserves the no-duplicate-url
invariant.  Under a normally behaving insert oracle and a store satisfying
the invariant: the invariant still holds after the batch; the previous
store is an unchanged prefix of the new one; the returned count is the
number of newly stored articles; lookup by a previously stored url still
finds the original article (no overwrite); and every batch article,
including one whose url already exists in the store or earlier in the
batch, ends up stored exactly once. -/
theorem store_news_dedup_invariant (behav : Article → InsertOutcome)
    (hb : ∀ a, behav a = InsertOutcome.ok) (batch db : List Article)
    (hdb : NoDupUrl db) :
    NoDupUrl (store_news_in_db behav batch db).2 ∧
    db <+: (store_news_in_db behav batch db).2 ∧
    db.length + (store_news_in_db behav batch db).1 =
      (store_news_in_db behav batch db).2.length ∧
    (∀ u, u ∈ db.map (fun a => a.url) →
      (store_news_in_db behav batch db).2.find? (fun b => b.url == u) =
        db.find? (fun b => b.url == u)) ∧
    (∀ a ∈ batch,
      ((store_news_in_db behav batch db).2.countP (fun b => b.url == a.url)) = 1) := by
  have hdb2 : (db.map (fun a => a.url)).Nodup := hdb
  have hnodup : ∀ N, N = newArticles batch (db.map (fun a => a.url)) →
      ((db ++ N).map (fun x => x.url)).Nodup := by
    intro N hN
    rw [List.map_append, hN]
    exact newArticles_urls_nodup batch (db.map (fun a => a.url)) hdb2
  cases batch with
  | nil =>
    refine ⟨hdb, List.prefix_rfl, by simp [store_news_in_db], ?_, ?_⟩
    · intro u _; simp [store_news_in_db]
    · intro a ha; cases ha
  | cons a0 rest0 =>
    have hstore : store_news_in_db behav (a0 :: rest0) db =
        (0 + (newArticles (a0 :: rest0) (db.map (fun a => a.url))).length,
         db ++ newArticles (a0 :: rest0) (db.map (fun a => a.url))) := by
      rw [store_news_in_db]
      simp only [List.isEmpty_cons, if_false, Bool.false_eq_true]
      exact storeLoop_ok_eq behav hb (a0 :: rest0) db 0
    rw [hstore]
    refine ⟨?_, ?_, ?_, ?_, ?_⟩
    · exact hnodup _ rfl
    · exact List.prefix_append db _
    · simp [List.length_append]
    · intro u hu
      rw [List.find?_append]
      have hsome : (db.find? (fun b => b.url == u)).isSome := by
        rw [List.find?_isSome]
        obtain ⟨b, hbmem, hburl⟩ := List.mem_map.mp hu
        exact ⟨b, hbmem, by simp [hburl]⟩
      obtain ⟨v, hv⟩ := Option.isSome_iff_exists.mp hsome
      rw [hv]
      rfl
    · intro a ha
      have hm : a.url ∈ (db ++ newArticles (a0 :: rest0)
          (db.map (fun x => x.url))).map (fun x => x.url) := by
        rw [List.map_append]
        exact newArticles_url_mem (a0 :: rest0) (db.map (fun x => x.url)) a ha
      exact countP_url_eq_one (hnodup _ rfl) hm

/-- Witness for C1: a batch with an in-batch duplicate url and a url
already stored, against a one-article store. -/
theorem store_news_dedup_invariant_witness :
    (∀ a, (fun _ : Article => InsertOutcome.ok) a = InsertOutcome.ok) ∧
    NoDupUrl [artW "u0".data 0 0] ∧
    (∀ a ∈ [artW "u1".data 1 0, artW "u1".data 1 0, artW "u0".data 0 0],
      ((store_news_in_db (fun _ => InsertOutcome.ok)
          [artW "u1".data 1 0, artW "u1".data 1 0, artW "u0".data 0 0]
          [artW "u0".data 0 0]).2.countP (fun b => b.url == a.url)) = 1) :=
  ⟨fun _ => rfl, by decide,
    (store_news_dedup_invariant _ (fun _ => rfl) _ _ (by decide)).2.2.2.2⟩

/-- Claim C2, counterexample: storing this batch of three fresh articles,
where the insert of the second raises, returns count 0 with only the
first article stored: the batch-level exception handler aborts the loop,
so the third article is never attempted, and the count 0 does not reflect
the first article even though it was newly stored.  The claim says the
failure would be logged and processing would continue per-article. -/
theorem store_news_per_article_cex :
    store_news_in_db
        (fun x => if x.url = "u2".data then InsertOutcome.exc else InsertOutcome.ok)
        [artW "u1".data 1 0, artW "u2".data 2 0, artW "u3".data 3 0] [] =
      (0, [artW "u1".data 1 0]) ∧
    artW "u3".data 3 0 ∉
      (store_news_in_db
        (fun x => if x.url = "u2".data then InsertOutcome.exc else InsertOutcome.ok)
        [artW "u1".data 1 0, artW "u2".data 2 0, artW "u3".data 3 0] []).2 := by
  constructor
  · rfl
  · decide

/-- Claim C2, amended: only the non-raising failure mode is per-article.
An insert whose result carries no inserted id is logged and the loop
continues with the next article of the batch; but an insert that raises
is caught by the handler around the whole loop, which returns count 0 and
leaves the remaining articles of the batch unattempted (articles inserted
before the exception remain stored). -/
theorem store_news_failure_handling (behav : Article → InsertOutcome)
    (a : Article) (rest db : List Article) (c : Nat)
    (hfresh : db.find? (fun b => b.url == a.url) = none) :
    (behav a = InsertOutcome.noId →
      storeLoop behav (a :: rest) db c = storeLoop behav rest db c) ∧
    (behav a = InsertOutcome.exc →
      storeLoop behav (a :: rest) db c = (0, db)) := by
  constructor
  · intro hno; simp [storeLoop, hfresh, hno]
  · intro hexc; simp [storeLoop, hfresh, hexc]

/-- Witness for C2 at a concrete batch whose head insert reports no id. -/
theorem store_news_failure_handling_witness :
    ([] : List Article).find? (fun b => b.url == (artW "u1".data 1 0).url) = none ∧
    (fun _ : Article => InsertOutcome.noId) (artW "u1".data 1 0) = InsertOutcome.noId ∧
    storeLoop (fun _ => InsertOutcome.noId)
        [artW "u1".data 1 0, artW "u2".data 2 0] [] 0 =
      storeLoop (fun _ => InsertOutcome.noId) [artW "u2".data 2 0] [] 0 :=
  ⟨rfl, rfl,
    (store_news_failure_handling (fun _ => InsertOutcome.noId) (artW "u1".data 1 0)
      [artW "u2".data 2 0] [] 0 rfl).1 rfl⟩

/-! Claims C5 and C9 (sentiment summary). -/

theorem get_news_for_symbol_sorted (db : List Article) (now : Int)
    (symbol : List Char) (days limit : Nat) :
    (get_news_for_symbol db now symbol days limit).Sorted newer := by
  unfold get_news_for_symbol
  exact (List.sorted_insertionSort newer _).sublist (List.take_sublist _ _)

/-- Claim C5: over a non-empty retrieved window of articles, every
average_sentiment field of get_sentiment_summary is the arithmetic mean of
that sentiment field over the retrieved articles, and sentiment_trend is
positive when the mean compound reaches one twentieth, negative when it
is at most minus one twentieth, and neutral otherwise; in particular, for
3 retrieved articles with compound sentiments one fifth, minus two
fifths, three fifths, the mean compound is 2/15 and the trend positive. -/
theorem sentiment_summary_mean_trend (db : List Article) (now : Int)
    (X : List Char) :
    (∀ days : Nat, get_news_for_symbol db now X days 100 ≠ [] →
      (get_sentiment_summary db now X days).averageSentiment =
        { compound := ((get_news_for_symbol db now X days 100).map
              (fun a => a.sentiment.compound)).sum /
            ((get_news_for_symbol db now X days 100).length : ℚ)
          positive := ((get_news_for_symbol db now X days 100).map
              (fun a => a.sentiment.positive)).sum /
            ((get_news_for_symbol db now X days 100).length : ℚ)
          negative := ((get_news_for_symbol db now X days 100).map
              (fun a => a.sentiment.negative)).sum /
            ((get_news_for_symbol db now X days 100).length : ℚ)
          neutral := ((get_news_for_symbol db now X days 100).map
              (fun a => a.sentiment.neutral)).sum /
            ((get_news_for_symbol db now X days 100).length : ℚ) } ∧
      (get_sentiment_summary db now X days).sentimentTrend =
        (if ((get_news_for_symbol db now X days 100).map
              (fun a => a.sentiment.compound)).sum /
            ((get_news_for_symbol db now X days 100).length : ℚ) ≥ 1/20
         then "positive".data
         else if ((get_news_for_symbol db now X days 100).map
              (fun a => a.sentiment.compound)).sum /
            ((get_news_for_symbol db now X days 100).length : ℚ) ≤ -(1/20)
         then "negative".data
         else "neutral".data)) ∧
    (List.Perm ((get_news_for_symbol db now X 7 100).map
        (fun a => a.sentiment.compound)) [1/5, -2/5, 3/5] →
      (get_sentiment_summary db now X 7).averageSentiment.compound = 2/15 ∧
      (get_sentiment_summary db now X 7).sentimentTrend = "positive".data) := by
  have main : ∀ days : Nat, get_news_for_symbol db now X days 100 ≠ [] →
      (get_sentiment_summary db now X days).averageSentiment =
        { compound := ((get_news_for_symbol db now X days 100).map
              (fun a => a.sentiment.compound)).sum /
            ((get_news_for_symbol db now X days 100).length : ℚ)
          positive := ((get_news_for_symbol db now X days 100).map
              (fun a => a.sentiment.positive)).sum /
            ((get_news_for_symbol db now X days 100).length : ℚ)
          negative := ((get_news_for_symbol db now X days 100).map
              (fun a => a.sentiment.negative)).sum /
            ((get_news_for_symbol db now X days 100).length : ℚ)
          neutral := ((get_news_for_symbol db now X days 100).map
              (fun a => a.sentiment.neutral)).sum /
            ((get_news_for_symbol db now X days 100).length : ℚ) } ∧
      (get_sentiment_summary db now X days).sentimentTrend =
        (if ((get_news_for_symbol db now X days 100).map
              (fun a => a.sentiment.compound)).sum /
            ((get_news_for_symbol db now X days 100).length : ℚ) ≥ 1/20
         then "positive".data
         else if ((get_news_for_symbol db now X days 100).map
              (fun a => a.sentiment.compound)).sum /
            ((get_news_for_symbol db now X days 100).length : ℚ) ≤ -(1/20)
         then "negative".data
         else "neutral".data) := by
    intro days hne
    cases hb : (get_news_for_symbol db now X days 100).isEmpty with
    | true => exact absurd (List.isEmpty_iff.mp hb) hne
    | false =>
      constructor
      · simp [get_sentiment_summary, hb]
      · simp [get_sentiment_summary, hb]
  refine ⟨main, ?_⟩
  intro hperm
  have hlen : (get_news_for_symbol db now X 7 100).length = 3 := by
    have h1 := hperm.length_eq
    simpa using h1
  have hne : get_news_for_symbol db now X 7 100 ≠ [] := by
    intro h
    rw [h] at hlen
    simp at hlen
  have hsum : ((get_news_for_symbol db now X 7 100).map
      (fun a => a.sentiment.compound)).sum = 2/5 := by
    rw [hperm.sum_eq]
    norm_num
  obtain ⟨havg, htrend⟩ := main 7 hne
  constructor
  · rw [show (get_sentiment_summary db now X 7).averageSentiment.compound =
        ((get_news_for_symbol db now X 7 100).map
          (fun a => a.sentiment.compound)).sum /
        ((get_news_for_symbol db now X 7 100).length : ℚ) from by rw [havg]]
    rw [hsum, hlen]
    norm_num
  · rw [htrend, hsum, hlen]
    norm_num

/-- Witness for C5 at a concrete three-article store whose newest-first
order carries the compound scores one fifth, minus two fifths, three
fifths. -/
theorem sentiment_summary_mean_trend_witness :
    List.Perm ((get_news_for_symbol
        [artW "u1".data 300 (1/5), artW "u2".data 200 (-2/5), artW "u3".data 100 (3/5)]
        1000 "2222.SR".data 7 100).map (fun a => a.sentiment.compound))
      [1/5, -2/5, 3/5] ∧
    (get_sentiment_summary
        [artW "u1".data 300 (1/5), artW "u2".data 200 (-2/5), artW "u3".data 100 (3/5)]
        1000 "2222.SR".data 7).averageSentiment.compound = 2/15 ∧
    (get_sentiment_summary
        [artW "u1".data 300 (1/5), artW "u2".data 200 (-2/5), artW "u3".data 100 (3/5)]
        1000 "2222.SR".data 7).sentimentTrend = "positive".data :=
  ⟨List.Perm.refl _,
    ((sentiment_summary_mean_trend
        [artW "u1".data 300 (1/5), artW "u2".data 200 (-2/5), artW "u3".data 100 (3/5)]
        1000 "2222.SR".data).2 (List.Perm.refl _)).1,
    ((sentiment_summary_mean_trend
        [artW "u1".data 300 (1/5), artW "u2".data 200 (-2/5), artW "u3".data 100 (3/5)]
        1000 "2222.SR".data).2 (List.Perm.refl _)).2⟩

/-- Claim C9, counterexample: the zero-article summary returned for an
empty store carries no latest_articles key at all (the zero-article
return dict of the source omits it), refuting the claim that every
returned value contains a latest_articles field. -/
theorem sentiment_summary_empty_latest_cex :
    (get_sentiment_summary [] 0 "2222.SR".data 7).latestArticles = none ∧
    (get_sentiment_summary [] 0 "2222.SR".data 7).articleCount = 0 :=
  ⟨rfl, rfl⟩

/-- Claim C9, amended: every summary carries symbol, period_days,
article_count (the number of retrieved articles), average_sentiment and
sentiment_trend; the zero-article case returns article_count 0 with the
all-zero averages and neutral trend and is not an error, but omits the
latest_articles field; every non-empty summary carries latest_articles
with at most 5 entries ordered newest first. -/
theorem sentiment_summary_shape (db : List Article) (now : Int)
    (X : List Char) (days : Nat) :
    (get_sentiment_summary db now X days).symbol = X ∧
    (get_sentiment_summary db now X days).periodDays = days ∧
    (get_sentiment_summary db now X days).articleCount =
      (get_news_for_symbol db now X days 100).length ∧
    ((get_sentiment_summary db now X days).articleCount = 0 →
      get_sentiment_summary db now X days =
        { symbol := X, periodDays := days, articleCount := 0
          averageSentiment := { compound := 0, positive := 0, negative := 0, neutral := 0 }
          sentimentTrend := "neutral".data, latestArticles := none }) ∧
    (∀ l, (get_sentiment_summary db now X days).latestArticles = some l →
      l.length ≤ 5 ∧ l.Pairwise (fun p q => q.publishedDate ≤ p.publishedDate)) ∧
    ((get_sentiment_summary db now X days).articleCount ≠ 0 →
      ∃ l, (get_sentiment_summary db now X days).latestArticles = some l) := by
  cases hb : (get_news_for_symbol db now X days 100).isEmpty with
  | true =>
    have hnil := List.isEmpty_iff.mp hb
    refine ⟨?_, ?_, ?_, ?_, ?_, ?_⟩
    · simp [get_sentiment_summary, hb]
    · simp [get_sentiment_summary, hb]
    · simp [get_sentiment_summary, hb, hnil]
    · intro _; simp [get_sentiment_summary, hb]
    · intro l hl
      simp [get_sentiment_summary, hb] at hl
    · intro hc
      exact absurd (by simp [get_sentiment_summary, hb]) hc
  | false =>
    refine ⟨?_, ?_, ?_, ?_, ?_, ?_⟩
    · simp [get_sentiment_summary, hb]
    · simp [get_sentiment_summary, hb]
    · simp [get_sentiment_summary, hb]
    · intro hc
      rw [show (get_sentiment_summary db now X days).articleCount =
          (get_news_for_symbol db now X days 100).length from by
        simp [get_sentiment_summary, hb]] at hc
      exact absurd (List.isEmpty_iff.mpr (List.eq_nil_of_length_eq_zero hc)) (by simp [hb])
    · intro l hl
      have hl2 : l = (((get_news_for_symbol db now X days 100)).map
          (fun a => ({ title := a.title, url := a.url, publishedDate := a.publishedDate
                       source := a.source, sentiment := a.sentiment.compound } :
            LatestArticle))).take 5 := by
        have := hl
        simp [get_sentiment_summary, hb] at this
        exact this.symm
      constructor
      · rw [hl2]
        simp [List.length_take]
      · rw [hl2]
        have hsorted := get_news_for_symbol_sorted db now X days 100
        have hmap : (((get_news_for_symbol db now X days 100)).map
            (fun a => ({ title := a.title, url := a.url, publishedDate := a.publishedDate
                         source := a.source, sentiment := a.sentiment.compound } :
              LatestArticle))).Pairwise
            (fun p q => q.publishedDate ≤ p.publishedDate) :=
          (List.pairwise_map).mpr (hsorted.imp (fun h => h))
        exact hmap.sublist (List.take_sublist _ _)
    · intro _
      refine ⟨((get_news_for_symbol db now X days 100).take 5).map
        (fun a => ({ title := a.title, url := a.url, publishedDate := a.publishedDate
                     source := a.source, sentiment := a.sentiment.compound } :
          LatestArticle)), ?_⟩
      simp [get_sentiment_summary, hb]

/-- Witness for C9 at a concrete non-empty store. -/
theorem sentiment_summary_shape_witness :
    (get_sentiment_summary
        [artW "u1".data 300 (1/5), artW "u2".data 200 (-2/5), artW "u3".data 100 (3/5)]
        1000 "2222.SR".data 7).articleCount ≠ 0 ∧
    (∃ l, (get_sentiment_summary
        [artW "u1".data 300 (1/5), artW "u2".data 200 (-2/5), artW "u3".data 100 (3/5)]
        1000 "2222.SR".data 7).latestArticles = some l) :=
  ⟨by decide,
    (sentiment_summary_shape
        [artW "u1".data 300 (1/5), artW "u2".data 200 (-2/5), artW "u3".data 100 (3/5)]
        1000 "2222.SR".data 7).2.2.2.2.2 (by decide)⟩

/-! Claims C8 and C10 (symbol extraction). -/

theorem findTickers_payload_aux :
    ∀ (n : Nat) (front : List Char), front.length ≤ n →
      ∀ (d1 d2 d3 d4 : Char) (rest : List Char),
        d1.isDigit = true → d2.isDigit = true → d3.isDigit = true →
        d4.isDigit = true →
        [d1, d2, d3, d4] ∈
          findTickers (front ++ d1 :: d2 :: d3 :: d4 :: '.' :: 'S' :: 'R' :: rest) := by
  intro n
  induction n with
  | zero =>
    intro front hlen d1 d2 d3 d4 rest h1 h2 h3 h4
    have hnil : front = [] := List.eq_nil_of_length_eq_zero (Nat.le_zero.mp hlen)
    subst hnil
    simp [findTickers, matchTicker, h1, h2, h3, h4]
  | succ n ih =>
    intro front hlen d1 d2 d3 d4 rest h1 h2 h3 h4
    cases front with
    | nil => simp [findTickers, matchTicker, h1, h2, h3, h4]
    | cons f front2 =>
      rw [List.cons_append]
      cases hmt : matchTicker
          (f :: (front2 ++ d1 :: d2 :: d3 :: d4 :: '.' :: 'S' :: 'R' :: rest)) with
      | none =>
        rw [show findTickers
              (f :: (front2 ++ d1 :: d2 :: d3 :: d4 :: '.' :: 'S' :: 'R' :: rest)) =
            findTickers (front2 ++ d1 :: d2 :: d3 :: d4 :: '.' :: 'S' :: 'R' :: rest)
          from by simp [findTickers, hmt]]
        exact ih front2 (by simp at hlen; omega) d1 d2 d3 d4 rest h1 h2 h3 h4
      | some g =>
        rcases front2 with _ | ⟨a1, _ | ⟨a2, _ | ⟨a3, _ | ⟨a4, _ | ⟨a5, _ | ⟨a6, front3⟩⟩⟩⟩⟩⟩
        · simp only [List.nil_append, matchTicker] at hmt
          split at hmt
          · next hC =>
              rw [hC.2.2.2.2.1] at h4
              exact absurd h4 (by decide)
          · exact Option.noConfusion hmt
        · simp only [List.cons_append, List.nil_append, matchTicker] at hmt
          split at hmt
          · next hC =>
              rw [hC.2.2.2.2.1] at h3
              exact absurd h3 (by decide)
          · exact Option.noConfusion hmt
        · simp only [List.cons_append, List.nil_append, matchTicker] at hmt
          split at hmt
          · next hC =>
              rw [hC.2.2.2.2.1] at h2
              exact absurd h2 (by decide)
          · exact Option.noConfusion hmt
        · simp only [List.cons_append, List.nil_append, matchTicker] at hmt
          split at hmt
          · next hC =>
              rw [hC.2.2.2.2.1] at h1
              exact absurd h1 (by decide)
          · exact Option.noConfusion hmt
        · simp only [List.cons_append, List.nil_append, matchTicker] at hmt
          split at hmt
          · next hC =>
              rw [hC.2.2.2.2.2.1] at h1
              exact absurd h1 (by decide)
          · exact Option.noConfusion hmt
        · simp only [List.cons_append, List.nil_append, matchTicker] at hmt
          split at hmt
          · next hC =>
              rw [hC.2.2.2.2.2.2] at h1
              exact absurd h1 (by decide)
          · exact Option.noConfusion hmt
        · rw [findTickers]
          simp only [hmt]
          apply List.mem_cons.mpr
          right
          exact ih front3 (by simp at hlen; omega) d1 d2 d3 d4 rest h1 h2 h3 h4

/-- Occurrence of four digits followed by the market suffix anywhere in
the text makes the scanner report those four digits: the helper behind
the round-trip and digit-run theorems. -/
theorem findTickers_of_payload (front : List Char) (d1 d2 d3 d4 : Char)
    (rest : List Char) (h1 : d1.isDigit = true) (h2 : d2.isDigit = true)
    (h3 : d3.isDigit = true) (h4 : d4.isDigit = true) :
    [d1, d2, d3, d4] ∈
      findTickers (front ++ d1 :: d2 :: d3 :: d4 :: '.' :: 'S' :: 'R' :: rest) :=
  findTickers_payload_aux front.length front le_rfl d1 d2 d3 d4 rest h1 h2 h3 h4

theorem mem_extract_iff (text : List Char) (s : List Char) :
    s ∈ extract_stock_symbols text ↔
      (∃ g, g ∈ findTickers text ∧ s = g ++ ".SR".data) ∨
      (∃ nm, nm ∈ stock_name_mapping ∧ hasSub nm.1 (pyToLower text) = true ∧
        s = nm.2) := by
  simp only [extract_stock_symbols, mem_pySortedSet, List.mem_append, List.mem_map,
    List.mem_filter]
  constructor
  · rintro (⟨g, hg, hs⟩ | ⟨nm, ⟨hnm, hsub⟩, hs⟩)
    · exact Or.inl ⟨g, hg, hs.symm⟩
    · exact Or.inr ⟨nm, hnm, hsub, hs.symm⟩
  · rintro (⟨g, hg, hs⟩ | ⟨nm, hnm, hsub, hs⟩)
    · exact Or.inl ⟨g, hg, hs.symm⟩
    · exact Or.inr ⟨nm, ⟨hnm, hsub⟩, hs.symm⟩

theorem count_eq_one_of_nodup {l : List (List Char)} (hnd : l.Nodup)
    {a : List Char} (hm : a ∈ l) : l.count a = 1 := by
  induction l with
  | nil => cases hm
  | cons b l ih =>
    rw [List.count_cons]
    rcases List.mem_cons.mp hm with rfl | h2
    · have hz : l.count a = 0 := by
        rw [List.count_eq_zero]
        exact (List.nodup_cons.mp hnd).1
      simp [hz]
    · have hne : (a == b) = false := by
        simp only [beq_eq_false_iff_ne, ne_eq]
        rintro rfl
        exact (List.nodup_cons.mp hnd).1 h2
      rw [ih (List.nodup_cons.mp hnd).2 h2]
      have hne2 : ¬ b = a := by
        simp only [beq_eq_false_iff_ne, ne_eq] at hne
        exact fun h => hne h.symm
      simp [hne, hne2]

/-- Claim C8: extract underscore stock underscore symbols returns a list
without duplicates, sorted lexicographically, whose members are exactly
the union of the regex-extracted tickers (with the market suffix
appended) and the alias-table hits against the lowercased text; text with
no match of either kind yields the empty list (never an error: the model
is total); and any text containing the substring 2222.SR, or the
substring aramco in lowercase after case folding, yields a list
containing 2222.SR exactly once. -/
theorem extract_symbols_roundtrip (text : List Char) :
    (extract_stock_symbols text).Nodup ∧
    (extract_stock_symbols text).Sorted lexLe ∧
    (∀ s, s ∈ extract_stock_symbols text ↔
      (∃ g, g ∈ findTickers text ∧ s = g ++ ".SR".data) ∨
      (∃ nm, nm ∈ stock_name_mapping ∧ hasSub nm.1 (pyToLower text) = true ∧
        s = nm.2)) ∧
    (findTickers text = [] →
      (∀ nm, nm ∈ stock_name_mapping → hasSub nm.1 (pyToLower text) = false) →
      extract_stock_symbols text = []) ∧
    (((∃ pre post, text = pre ++ "2222.SR".data ++ post) ∨
        hasSub "aramco".data (pyToLower text) = true) →
      (extract_stock_symbols text).count "2222.SR".data = 1) := by
  refine ⟨pySortedSet_nodup _, pySortedSet_sorted _, mem_extract_iff text, ?_, ?_⟩
  · intro hreg halias
    rw [List.eq_nil_iff_forall_not_mem]
    intro s hs
    rcases (mem_extract_iff text s).mp hs with ⟨g, hg, _⟩ | ⟨nm, hnm, hsub, _⟩
    · rw [hreg] at hg; cases hg
    · rw [halias nm hnm] at hsub; cases hsub
  · intro h
    have hmem : "2222.SR".data ∈ extract_stock_symbols text := by
      rcases h with ⟨pre, post, htext⟩ | haramco
      · apply (mem_extract_iff text _).mpr
        left
        refine ⟨['2', '2', '2', '2'], ?_, by decide⟩
        rw [htext]
        rw [List.append_assoc]
        rw [show "2222.SR".data ++ post =
          '2' :: '2' :: '2' :: '2' :: '.' :: 'S' :: 'R' :: post from rfl]
        exact findTickers_of_payload pre '2' '2' '2' '2' post
          (by decide) (by decide) (by decide) (by decide)
      · apply (mem_extract_iff text _).mpr
        right
        exact ⟨("aramco".data, "2222.SR".data), by decide, haramco, rfl⟩
    exact count_eq_one_of_nodup (pySortedSet_nodup _) hmem

/-- Witness for C8 at a text containing aramco in mixed case. -/
theorem extract_symbols_roundtrip_witness :
    ((∃ pre post, "see ArAmCo".data = pre ++ "2222.SR".data ++ post) ∨
      hasSub "aramco".data (pyToLower "see ArAmCo".data) = true) ∧
    (extract_stock_symbols "see ArAmCo".data).count "2222.SR".data = 1 :=
  ⟨Or.inr (by decide),
    (extract_symbols_roundtrip "see ArAmCo".data).2.2.2.2 (Or.inr (by decide))⟩

/-- Claim C10: the ticker regex has no left boundary, so whenever a run
of digits of length at least 5 is immediately followed by the market
suffix, the extracted symbols contain the ticker formed from the last
four digits of the run, the scanner matching them against the dot. -/
theorem extract_symbols_digit_run (pre run post : List Char)
    (hd : run.all Char.isDigit = true) (hlen : 5 ≤ run.length) :
    (run.drop (run.length - 4)) ++ ".SR".data ∈
      extract_stock_symbols (pre ++ run ++ ('.' :: 'S' :: 'R' :: post)) := by
  have hlen4 : (run.drop (run.length - 4)).length = 4 := by
    rw [List.length_drop]; omega
  have hdigits : ∀ c, c ∈ run.drop (run.length - 4) → c.isDigit = true := by
    intro c hc
    exact List.all_eq_true.mp hd c (List.drop_subset _ _ hc)
  rcases h1 : run.drop (run.length - 4) with _ | ⟨x1, l1⟩
  · rw [h1] at hlen4; simp at hlen4
  rcases l1 with _ | ⟨x2, l2⟩
  · rw [h1] at hlen4; simp at hlen4
  rcases l2 with _ | ⟨x3, l3⟩
  · rw [h1] at hlen4; simp at hlen4
  rcases l3 with _ | ⟨x4, l4⟩
  · rw [h1] at hlen4; simp at hlen4
  rcases l4 with _ | ⟨x5, l5⟩
  case cons.cons.cons.cons.cons =>
    rw [h1] at hlen4; simp at hlen4
  rw [h1] at hdigits
  apply (mem_extract_iff _ _).mpr
  left
  refine ⟨[x1, x2, x3, x4], ?_, rfl⟩
  have hsplit : run = run.take (run.length - 4) ++ [x1, x2, x3, x4] := by
    rw [show [x1, x2, x3, x4] = run.drop (run.length - 4) from h1.symm]
    exact (List.take_append_drop _ run).symm
  rw [show pre ++ run ++ ('.' :: 'S' :: 'R' :: post) =
      (pre ++ run.take (run.length - 4)) ++
        x1 :: x2 :: x3 :: x4 :: '.' :: 'S' :: 'R' :: post from by
    conv =>
      lhs
      rw [hsplit]
    simp [List.append_assoc]]
  exact findTickers_of_payload (pre ++ run.take (run.length - 4)) x1 x2 x3 x4 post
    (hdigits x1 (by simp)) (hdigits x2 (by simp)) (hdigits x3 (by simp))
    (hdigits x4 (by simp))

/-- Witness for C10 at the text 12345.SR, whose digit run of length 5
yields the ticker 2345.SR built from the last four digits. -/
theorem extract_symbols_digit_run_witness :
    "12345".data.all Char.isDigit = true ∧ 5 ≤ "12345".data.length ∧
    "2345.SR".data ∈ extract_stock_symbols "12345.SR".data := by
  refine ⟨by decide, by decide, ?_⟩
  have h := extract_symbols_digit_run [] "12345".data [] (by decide) (by decide)
  exact h
